import Mathlib

/-!
# Verification of the financial planning dashboard core

A shallow embedding, over `ℚ`, of the two core components of
`budget_invest_app.py`:

* the **Return Estimator** `get_alpha_vantage_monthly_return` together with
  the truthiness-based fallback-rate assignments (`stock_r = ... or 0.01`,
  `bond_r = ... or 0.003`, and the constant rates `real_r`, `crypto_r`,
  `fd_r`), and
* the **Net-Worth Projector**: the month loop that accumulates the running
  cash balance and evaluates the geometric-annuity formula
  `c * ((1 + r)^m - 1) / r` for each of the five asset classes.

Real (float) arithmetic is idealised as exact rational arithmetic.
Python raises `ZeroDivisionError` on float division by zero, and an
uncaught exception aborts the script; fallible computations are therefore
embedded in `Option`, with `none` standing for an uncaught exception.
-/

namespace BudgetInvest

/-! ## Return Estimator (`get_alpha_vantage_monthly_return`) -/

/-- Abstraction of the HTTP response consumed by the estimator.
`series` models the values of the `"Monthly Adjusted Time Series"` object in
iteration (newest-first) order; each entry is `some q` when the entry carries
a `"5. adjusted close"` field that parses as the number `q`, and `none` when
the field is missing or unparseable (both raise in Python: `KeyError` or
`ValueError`).  A payload without the time-series key yields `series = []`
(the code defaults the missing key to `{}`). -/
structure Response where
  statusCode : ℕ
  series : List (Option ℚ)

/-- Outcome of one estimator invocation: a computed rate, the Python value
`None` (no estimate available), or an uncaught exception. -/
inductive FetchResult where
  | ok (rate : ℚ)
  | noEstimate
  | raised
deriving DecidableEq

/-- The list comprehension
`[float(v["5. adjusted close"]) for v in ts.values()]`: it produces the list
of parsed closes, but raises (`none`) as soon as any entry is malformed. -/
def extractCloses : List (Option ℚ) → Option (List ℚ)
  | [] => some []
  | none :: _ => none
  | some q :: rest => (extractCloses rest).map (fun l => q :: l)

/-- `get_alpha_vantage_monthly_return` (lines 19-30 of the source): a
non-200 status returns `None`; the closes list is extracted (raising on a
malformed entry); fewer than two closes returns `None`; otherwise the result
is `(closes[0] - closes[1]) / closes[1]`, which raises when `closes[1] = 0`
(Python float division by zero raises `ZeroDivisionError`). -/
def get_alpha_vantage_monthly_return (resp : Response) : FetchResult :=
  if resp.statusCode ≠ 200 then FetchResult.noEstimate
  else
    match extractCloses resp.series with
    | none => FetchResult.raised
    | some closes =>
      match closes with
      | c0 :: c1 :: _ =>
        if c1 = 0 then FetchResult.raised
        else FetchResult.ok ((c0 - c1) / c1)
      | _ => FetchResult.noEstimate

/-- Python's `x or fallback` applied to an estimator result: `None` and the
float `0.0` are falsy and select the fallback; any other float is kept.  A
raised exception propagates (`none`). -/
def fetchOr (res : FetchResult) (fallback : ℚ) : Option ℚ :=
  match res with
  | FetchResult.raised => none
  | FetchResult.noEstimate => some fallback
  | FetchResult.ok v => if v = 0 then some fallback else some v

/-- `stock_r = get_alpha_vantage_monthly_return("SPY") or 0.01` (line 56),
with the HTTP response abstracted as an input. -/
def stock_r (resp : Response) : Option ℚ :=
  fetchOr (get_alpha_vantage_monthly_return resp) (1 / 100)

/-- `bond_r = get_alpha_vantage_monthly_return("AGG") or 0.003` (line 57). -/
def bond_r (resp : Response) : Option ℚ :=
  fetchOr (get_alpha_vantage_monthly_return resp) (3 / 1000)

/-- `real_r = 0.004` (line 58): constant, no live source. -/
def real_r : ℚ := 4 / 1000

/-- `crypto_r = 0.02` (line 59): constant, no live source. -/
def crypto_r : ℚ := 2 / 100

/-- `fd_r = 0.003` (line 60): constant, no live source. -/
def fd_r : ℚ := 3 / 1000

/-- Extracting a list of well-formed entries succeeds with exactly the
underlying closes. -/
lemma extractCloses_map_some (l : List ℚ) :
    extractCloses (l.map some) = some l := by
  induction l with
  | nil => rfl
  | cons q rest ih => simp [extractCloses, ih]

/-! ## Net-Worth Projector (the month loop, lines 68-88) -/

/-- The scalar inputs of one projection run: the constant net monthly flow
`net_flow` (line 66), the five per-asset monthly contributions, and the five
per-asset periodic rates as they enter the loop. -/
structure Params where
  net_flow : ℚ
  stocks : ℚ
  bonds : ℚ
  real_estate : ℚ
  crypto : ℚ
  fixed_deposit : ℚ
  stock_r : ℚ
  bond_r : ℚ
  real_r : ℚ
  crypto_r : ℚ
  fd_r : ℚ

/-- One row of the projection table, matching the dict appended to `rows`. -/
structure Row where
  Month : ℕ
  Balance : ℚ
  Stocks : ℚ
  Bonds : ℚ
  RealEstate : ℚ
  Crypto : ℚ
  FixedDeposit : ℚ
  NetWorth : ℚ
deriving DecidableEq, Inhabited

/-- The per-asset accumulated value `c * ((1 + r)**m - 1) / r` as written in
the loop body.  When `r = 0` this is Python float `0.0 / 0.0` (or `x / 0.0`)
and raises `ZeroDivisionError`, so the result is `none`. -/
def assetVal (c r : ℚ) (m : ℕ) : Option ℚ :=
  if r = 0 then none else some (c * ((1 + r) ^ m - 1) / r)

/-- One iteration of the loop body at month `m` with the already-updated
balance `bal`: the five asset values (any `ZeroDivisionError` aborts the
whole run) and the appended row with
`net_worth = bal + stock_val + bond_val + real_val + crypto_val + fd_val`. -/
def mkRow (p : Params) (bal : ℚ) (m : ℕ) : Option Row :=
  match assetVal p.stocks p.stock_r m, assetVal p.bonds p.bond_r m,
      assetVal p.real_estate p.real_r m, assetVal p.crypto p.crypto_r m,
      assetVal p.fixed_deposit p.fd_r m with
  | some stock_val, some bond_val, some real_val, some crypto_val,
      some fd_val =>
    some { Month := m, Balance := bal, Stocks := stock_val,
           Bonds := bond_val, RealEstate := real_val, Crypto := crypto_val,
           FixedDeposit := fd_val,
           NetWorth := bal + stock_val + bond_val + real_val + crypto_val
             + fd_val }
  | _, _, _, _, _ => none

/-- The remaining iterations of the loop: `k` iterations left, current
balance `bal`, next month index `m`.  Each iteration first executes
`bal += net_flow` and then builds the row; an exception propagates. -/
def projFrom (p : Params) : ℕ → ℚ → ℕ → Option (List Row)
  | 0, _, _ => some []
  | k + 1, bal, m =>
    match mkRow p (bal + p.net_flow) m,
        projFrom p k (bal + p.net_flow) (m + 1) with
    | some row, some rest => some (row :: rest)
    | _, _ => none

/-- The whole projection: `bal = 0` and `for m in range(1, months + 1)`. -/
def projection (p : Params) (months : ℕ) : Option (List Row) :=
  projFrom p months 0 1

/-- The value the annuity formula takes when it does not raise. -/
def assetValP (c r : ℚ) (m : ℕ) : ℚ := c * ((1 + r) ^ m - 1) / r

/-- The row the loop body produces when no division raises. -/
def mkRowP (p : Params) (bal : ℚ) (m : ℕ) : Row :=
  { Month := m, Balance := bal,
    Stocks := assetValP p.stocks p.stock_r m,
    Bonds := assetValP p.bonds p.bond_r m,
    RealEstate := assetValP p.real_estate p.real_r m,
    Crypto := assetValP p.crypto p.crypto_r m,
    FixedDeposit := assetValP p.fixed_deposit p.fd_r m,
    NetWorth := bal + assetValP p.stocks p.stock_r m
      + assetValP p.bonds p.bond_r m + assetValP p.real_estate p.real_r m
      + assetValP p.crypto p.crypto_r m
      + assetValP p.fixed_deposit p.fd_r m }

/-- All five rates entering the loop are nonzero. -/
def RatesNonzero (p : Params) : Prop :=
  p.stock_r ≠ 0 ∧ p.bond_r ≠ 0 ∧ p.real_r ≠ 0 ∧ p.crypto_r ≠ 0 ∧
    p.fd_r ≠ 0

instance (p : Params) : Decidable (RatesNonzero p) := by
  unfold RatesNonzero; infer_instance

lemma assetVal_of_ne (c r : ℚ) (m : ℕ) (h : r ≠ 0) :
    assetVal c r m = some (assetValP c r m) := by
  simp [assetVal, assetValP, h]

lemma assetVal_some_ne (c r : ℚ) (m : ℕ) (v : ℚ)
    (h : assetVal c r m = some v) : r ≠ 0 := by
  intro hr
  simp [assetVal, hr] at h

lemma mkRow_of_nonzero (p : Params) (bal : ℚ) (m : ℕ)
    (h : RatesNonzero p) : mkRow p bal m = some (mkRowP p bal m) := by
  obtain ⟨h1, h2, h3, h4, h5⟩ := h
  rw [mkRow, assetVal_of_ne _ _ _ h1, assetVal_of_ne _ _ _ h2,
    assetVal_of_ne _ _ _ h3, assetVal_of_ne _ _ _ h4,
    assetVal_of_ne _ _ _ h5]
  rfl

lemma mkRow_some_rates (p : Params) (bal : ℚ) (m : ℕ) (row : Row)
    (h : mkRow p bal m = some row) : RatesNonzero p := by
  rw [mkRow] at h
  split at h
  case _ s b r c f hs hb hr hc hf =>
    exact ⟨assetVal_some_ne _ _ _ _ hs, assetVal_some_ne _ _ _ _ hb,
      assetVal_some_ne _ _ _ _ hr, assetVal_some_ne _ _ _ _ hc,
      assetVal_some_ne _ _ _ _ hf⟩
  case _ => exact absurd h (by simp)

lemma projFrom_some_rates (p : Params) (k : ℕ) (bal : ℚ) (m : ℕ)
    (L : List Row) (h : projFrom p (k + 1) bal m = some L) :
    RatesNonzero p := by
  rw [projFrom] at h
  split at h
  case _ row rest hrow hrest => exact mkRow_some_rates _ _ _ _ hrow
  case _ => exact absurd h (by simp)

lemma mkRowP_congr (p : Params) {b1 b2 : ℚ} {m1 m2 : ℕ} (hb : b1 = b2)
    (hm : m1 = m2) : mkRowP p b1 m1 = mkRowP p b2 m2 := by
  rw [hb, hm]

/-- Closed form of a successful run: row `j` (0-based) has balance
`bal + (j + 1) * net_flow` and month `m + j`. -/
lemma projFrom_eq (p : Params) (h : RatesNonzero p) :
    ∀ (k : ℕ) (bal : ℚ) (m : ℕ),
      projFrom p k bal m =
        some ((List.range k).map
          (fun j => mkRowP p (bal + (j + 1 : ℕ) * p.net_flow) (m + j))) := by
  intro k
  induction k with
  | zero => intro bal m; simp [projFrom]
  | succ k ih =>
    intro bal m
    rw [projFrom, mkRow_of_nonzero p _ _ h, ih (bal + p.net_flow) (m + 1)]
    simp only [List.range_succ_eq_map, List.map_cons, List.map_map]
    refine congrArg some (List.cons_eq_cons.mpr ⟨?_, List.map_congr_left ?_⟩)
    · refine mkRowP_congr p ?_ (by omega)
      push_cast
      ring
    · intro j _
      simp only [Function.comp_apply]
      refine mkRowP_congr p ?_ (by omega)
      push_cast
      ring

lemma projection_eq (p : Params) (h : RatesNonzero p) (H : ℕ) :
    projection p H =
      some ((List.range H).map
        (fun j => mkRowP p ((j + 1 : ℕ) * p.net_flow) (1 + j))) := by
  rw [projection, projFrom_eq p h]
  simp

lemma fetchOr_some_ne (res : FetchResult) (fallback v : ℚ)
    (hf : fallback ≠ 0) (h : fetchOr res fallback = some v) : v ≠ 0 := by
  cases res with
  | raised => simp [fetchOr] at h
  | noEstimate =>
    simp only [fetchOr, Option.some.injEq] at h
    exact h ▸ hf
  | ok w =>
    simp only [fetchOr] at h
    split_ifs at h with hw
    · simp only [Option.some.injEq] at h
      exact h ▸ hf
    · simp only [Option.some.injEq] at h
      exact h ▸ hw

lemma assetValP_succ_le (c r : ℚ) (hc : 0 ≤ c) (hr : 0 ≤ r) (h0 : r ≠ 0)
    (m : ℕ) : assetValP c r m ≤ assetValP c r (m + 1) := by
  have key : assetValP c r (m + 1) - assetValP c r m = c * (1 + r) ^ m := by
    simp only [assetValP]
    field_simp
    ring
  have pos : 0 ≤ c * (1 + r) ^ m :=
    mul_nonneg hc (pow_nonneg (by linarith) m)
  linarith

/-! ## Concrete sample inputs used by witnesses and scenarios -/

/-- The spec's second scenario: `f = 2000`, all contributions `0`,
rates as assembled by the fallback pipeline. -/
def sampleParams : Params :=
  { net_flow := 2000, stocks := 0, bonds := 0, real_estate := 0,
    crypto := 0, fixed_deposit := 0, stock_r := 1 / 100,
    bond_r := 3 / 1000, real_r := 4 / 1000, crypto_r := 2 / 100,
    fd_r := 3 / 1000 }

/-- The rows the reference produces for `sampleParams` over 3 months. -/
def sampleRows : List Row :=
  [⟨1, 2000, 0, 0, 0, 0, 0, 2000⟩, ⟨2, 4000, 0, 0, 0, 0, 0, 4000⟩,
   ⟨3, 6000, 0, 0, 0, 0, 0, 6000⟩]

/-- The spec's first scenario: `c_stocks = 500`, `r_stocks = 0.01`,
everything else zero contribution, all rates at their defaults. -/
def stockParams : Params :=
  { net_flow := 0, stocks := 500, bonds := 0, real_estate := 0,
    crypto := 0, fixed_deposit := 0, stock_r := 1 / 100,
    bond_r := 3 / 1000, real_r := 4 / 1000, crypto_r := 2 / 100,
    fd_r := 3 / 1000 }

lemma sampleParams_rates : RatesNonzero sampleParams := by
  norm_num [RatesNonzero, sampleParams]

lemma projection_sample : projection sampleParams 3 = some sampleRows := by
  rw [projection_eq sampleParams sampleParams_rates 3]
  simp only [List.range_succ, List.range_zero, List.nil_append,
    List.cons_append, List.map_cons, List.map_nil, Option.some.injEq]
  norm_num [mkRowP, assetValP, sampleParams, sampleRows, Row.mk.injEq]

/-! ## Claim theorems -/

/-- C1: the claim says that for a rate of exactly 0 the computed asset value
is `c * m` (here `500 * 1` at month 1) instead of a division error.  The
code has no special case: at `r = 0` the annuity formula evaluates
`0.0 / 0.0` and raises `ZeroDivisionError` (modelled as `none`), so the
asset value is not produced at all. -/
theorem zero_rate_division_raises :
    assetVal 500 0 1 = none ∧ assetVal 500 0 1 ≠ some (500 * 1) := by
  constructor <;> simp [assetVal]

/-- C7: the claim says a zero contribution yields a zero asset value for
every rate, including `r = 0`.  For any nonzero rate (positive or negative)
the value is indeed `0`, but at `r = 0` the code still evaluates
`0.0 / 0.0` and raises instead of returning `0`. -/
theorem zero_contribution_values :
    assetVal 0 0 1 = none ∧ assetVal 0 (1 / 100) 1 = some 0 ∧
      assetVal 0 (-1 / 100) 2 = some 0 := by
  refine ⟨by simp [assetVal], ?_, ?_⟩ <;>
    · simp only [assetVal]
      norm_num

/-- C4 counterexample: on a status-200 response whose first time-series
entry is malformed (missing or unparseable adjusted close), the list
comprehension raises an uncaught exception rather than returning `None`. -/
theorem malformed_payload_raises :
    get_alpha_vantage_monthly_return ⟨200, [none, some 5]⟩ =
        FetchResult.raised ∧
      get_alpha_vantage_monthly_return ⟨200, [none, some 5]⟩ ≠
        FetchResult.noEstimate := by
  constructor <;> simp [get_alpha_vantage_monthly_return, extractCloses]

/-- C4 amended: the estimator returns `None` (no estimate) on any non-200
response and on any well-formed series with fewer than two data points; a
malformed series entry, by contrast, raises (see the counterexample). -/
theorem return_estimator_failure_paths :
    (∀ resp : Response, resp.statusCode ≠ 200 →
      get_alpha_vantage_monthly_return resp = FetchResult.noEstimate) ∧
    (∀ closes : List ℚ, closes.length < 2 →
      get_alpha_vantage_monthly_return ⟨200, closes.map some⟩ =
        FetchResult.noEstimate) := by
  constructor
  · intro resp h
    simp [get_alpha_vantage_monthly_return, h]
  · intro closes h
    simp only [get_alpha_vantage_monthly_return, extractCloses_map_some]
    cases closes with
    | nil => norm_num
    | cons c rest =>
      cases rest with
      | nil => norm_num
      | cons d r2 =>
        simp only [List.length_cons] at h
        omega

theorem return_estimator_failure_paths_witness :
    get_alpha_vantage_monthly_return ⟨404, []⟩ = FetchResult.noEstimate :=
  return_estimator_failure_paths.1 ⟨404, []⟩ (by norm_num)

/-- C5: on a success — status 200, every series entry well-formed, at least
two entries (newest first), previous close nonzero so the division does not
raise — the estimator returns
`(most recent close - previous close) / previous close`. -/
theorem success_rate_formula (c0 c1 : ℚ) (rest : List ℚ) (h : c1 ≠ 0) :
    get_alpha_vantage_monthly_return ⟨200, (c0 :: c1 :: rest).map some⟩ =
      FetchResult.ok ((c0 - c1) / c1) := by
  simp only [get_alpha_vantage_monthly_return, extractCloses_map_some]
  norm_num [h]

theorem success_rate_formula_witness :
    get_alpha_vantage_monthly_return
        ⟨200, (101 :: 100 :: ([] : List ℚ)).map some⟩ =
      FetchResult.ok ((101 - 100) / 100) :=
  success_rate_formula 101 100 [] (by norm_num)

/-- C6: when the quote source fails (any non-200 status, e.g. HTTP 500) the
caller's `or` substitutes the documented fallback — Stocks `0.01`, Bonds
`0.003` — and RealEstate, Crypto and FixedDeposit are the constants
`0.004`, `0.02`, `0.003` with no live source; the failure never reaches the
projection (a definite rate is always produced). -/
theorem http_500_fallback_rates (resp : Response)
    (h : resp.statusCode = 500) :
    stock_r resp = some (1 / 100) ∧ bond_r resp = some (3 / 1000) ∧
      real_r = 4 / 1000 ∧ crypto_r = 2 / 100 ∧ fd_r = 3 / 1000 := by
  have hne : get_alpha_vantage_monthly_return resp =
      FetchResult.noEstimate := by
    rw [get_alpha_vantage_monthly_return, if_pos (by omega)]
  exact ⟨by rw [stock_r, hne]; rfl, by rw [bond_r, hne]; rfl, rfl, rfl, rfl⟩

theorem http_500_fallback_rates_witness :
    stock_r ⟨500, []⟩ = some (1 / 100) ∧
      bond_r ⟨500, []⟩ = some (3 / 1000) ∧
      real_r = 4 / 1000 ∧ crypto_r = 2 / 100 ∧ fd_r = 3 / 1000 :=
  http_500_fallback_rates ⟨500, []⟩ rfl

/-- C10: every rate the assembled pipeline can feed into the projection
loop is nonzero: whenever `stock_r` (resp. `bond_r`) yields a value it is
nonzero — a fetched rate of exactly `0.0` is falsy in Python and is
replaced by the nonzero fallback, as the last conjunct shows — and the
three constant rates are nonzero. -/
theorem pipeline_rates_nonzero :
    (∀ (resp : Response) (v : ℚ), stock_r resp = some v → v ≠ 0) ∧
    (∀ (resp : Response) (v : ℚ), bond_r resp = some v → v ≠ 0) ∧
    real_r ≠ 0 ∧ crypto_r ≠ 0 ∧ fd_r ≠ 0 ∧
    (∀ d : ℚ, fetchOr (FetchResult.ok 0) d = some d) := by
  refine ⟨?_, ?_, by norm_num [real_r], by norm_num [crypto_r],
    by norm_num [fd_r], ?_⟩
  · intro resp v h
    exact fetchOr_some_ne _ _ _ (by norm_num) h
  · intro resp v h
    exact fetchOr_some_ne _ _ _ (by norm_num) h
  · intro d
    simp [fetchOr]

theorem pipeline_rates_nonzero_witness : (1 / 100 : ℚ) ≠ 0 :=
  pipeline_rates_nonzero.1 ⟨500, []⟩ (1 / 100)
    (by simp [stock_r, get_alpha_vantage_monthly_return, fetchOr])

/-- C2: in every produced projection, each row's net worth is the cash
balance plus the sum of the five asset values, the first row's balance is
the net flow `f`, and each later row's balance is the previous row's
balance plus `f` (so `balance[m] = balance[m-1] + f` with
`balance[0] = 0`). -/
theorem projection_networth_invariant (p : Params) (H : ℕ)
    (rows : List Row) (hp : projection p H = some rows) :
    (∀ r ∈ rows, r.NetWorth = r.Balance +
        (r.Stocks + r.Bonds + r.RealEstate + r.Crypto + r.FixedDeposit)) ∧
    (∀ h0 : 0 < rows.length, (rows.get ⟨0, h0⟩).Balance = p.net_flow) ∧
    (∀ (i : ℕ) (hi : i + 1 < rows.length),
      (rows.get ⟨i + 1, hi⟩).Balance =
        (rows.get ⟨i, Nat.lt_of_succ_lt hi⟩).Balance + p.net_flow) := by
  cases H with
  | zero =>
    rw [projection, projFrom] at hp
    injection hp with hp
    subst hp
    refine ⟨by simp, ?_, ?_⟩
    · intro h0
      simp at h0
    · intro i hi
      simp at hi
  | succ k =>
    have hnz : RatesNonzero p := projFrom_some_rates p k 0 1 rows hp
    rw [projection_eq p hnz] at hp
    injection hp with hp
    subst hp
    refine ⟨?_, ?_, ?_⟩
    · intro r hr
      simp only [List.mem_map, List.mem_range] at hr
      obtain ⟨j, -, rfl⟩ := hr
      simp only [mkRowP]
      ring
    · intro h0
      simp only [List.get_eq_getElem, List.getElem_map, List.getElem_range,
        mkRowP]
      norm_num
    · intro i hi
      simp only [List.get_eq_getElem, List.getElem_map, List.getElem_range,
        mkRowP]
      push_cast
      ring

theorem projection_networth_invariant_witness :
    (sampleRows.get ⟨0, by decide⟩).Balance = sampleParams.net_flow :=
  (projection_networth_invariant sampleParams 3 sampleRows
    projection_sample).2.1 (by decide)

/-- C3: for any horizon `H ≥ 1` and any net flow (however negative) and
contributions, as long as the rates entering the loop are nonzero (which
the assembled pipeline guarantees), the projection completes without error
and yields exactly `H` rows whose month indices are `1, 2, ..., H` in
order. -/
theorem projection_row_count (p : Params) (H : ℕ) (_hH : 1 ≤ H)
    (hr : RatesNonzero p) :
    (projection p H).map List.length = some H ∧
    (projection p H).map (List.map Row.Month) =
      some (List.range' 1 H) := by
  rw [projection_eq p hr]
  constructor
  · simp
  · simp [mkRowP, List.map_map, Function.comp, List.range'_eq_map_range]

theorem projection_row_count_witness :
    (projection sampleParams 3).map List.length = some 3 ∧
    (projection sampleParams 3).map (List.map Row.Month) =
      some (List.range' 1 3) :=
  projection_row_count sampleParams 3 (by norm_num) sampleParams_rates

/-- C8: with a positive net flow, nonnegative contributions and
nonnegative rates, the net worth of any produced projection is
non-decreasing from each month to the next. -/
theorem networth_monotone (p : Params) (H : ℕ) (rows : List Row)
    (hf : 0 < p.net_flow)
    (hcs : 0 ≤ p.stocks) (hcb : 0 ≤ p.bonds) (hcr : 0 ≤ p.real_estate)
    (hcc : 0 ≤ p.crypto) (hcf : 0 ≤ p.fixed_deposit)
    (hrs : 0 ≤ p.stock_r) (hrb : 0 ≤ p.bond_r) (hrr : 0 ≤ p.real_r)
    (hrc : 0 ≤ p.crypto_r) (hrf : 0 ≤ p.fd_r)
    (hp : projection p H = some rows) :
    ∀ (i : ℕ) (hi : i + 1 < rows.length),
      (rows.get ⟨i, Nat.lt_of_succ_lt hi⟩).NetWorth ≤
        (rows.get ⟨i + 1, hi⟩).NetWorth := by
  intro i hi
  cases H with
  | zero =>
    rw [projection, projFrom] at hp
    injection hp with hp
    subst hp
    simp at hi
  | succ k =>
    have hnz : RatesNonzero p := projFrom_some_rates p k 0 1 rows hp
    rw [projection_eq p hnz] at hp
    injection hp with hp
    subst hp
    have hA := assetValP_succ_le p.stocks p.stock_r hcs hrs hnz.1 (1 + i)
    have hB := assetValP_succ_le p.bonds p.bond_r hcb hrb hnz.2.1 (1 + i)
    have hC := assetValP_succ_le p.real_estate p.real_r hcr hrr
      hnz.2.2.1 (1 + i)
    have hD := assetValP_succ_le p.crypto p.crypto_r hcc hrc
      hnz.2.2.2.1 (1 + i)
    have hE := assetValP_succ_le p.fixed_deposit p.fd_r hcf hrf
      hnz.2.2.2.2 (1 + i)
    have hbal : ((i : ℚ) + 1) * p.net_flow ≤
        ((i : ℚ) + 1 + 1) * p.net_flow :=
      mul_le_mul_of_nonneg_right (by linarith) (le_of_lt hf)
    simp only [List.get_eq_getElem, List.getElem_map, List.getElem_range,
      mkRowP]
    push_cast
    exact add_le_add (add_le_add (add_le_add (add_le_add
      (add_le_add hbal hA) hB) hC) hD) hE

theorem networth_monotone_witness :
    (sampleRows.get ⟨0, by decide⟩).NetWorth ≤
      (sampleRows.get ⟨1, by decide⟩).NetWorth :=
  networth_monotone sampleParams 3 sampleRows
    (by norm_num [sampleParams]) (by norm_num [sampleParams])
    (by norm_num [sampleParams]) (by norm_num [sampleParams])
    (by norm_num [sampleParams]) (by norm_num [sampleParams])
    (by norm_num [sampleParams]) (by norm_num [sampleParams])
    (by norm_num [sampleParams]) (by norm_num [sampleParams])
    (by norm_num [sampleParams]) projection_sample 0 (by decide)

/-- C9: both numeric scenarios.  With `c_stocks = 500`, `r_stocks = 0.01`
and horizon 2 the stocks column is `[500, 1005]`; with `f = 2000`, all
contributions zero and horizon 3 the `(month, balance, net worth)` rows are
`(1, 2000, 2000), (2, 4000, 4000), (3, 6000, 6000)`. -/
theorem concrete_scenarios :
    (projection stockParams 2).map (List.map Row.Stocks) =
        some [500, 1005] ∧
    (projection sampleParams 3).map
        (List.map (fun r => (r.Month, r.Balance, r.NetWorth))) =
      some [(1, 2000, 2000), (2, 4000, 4000), (3, 6000, 6000)] := by
  constructor
  · rw [projection_eq stockParams (by norm_num [RatesNonzero, stockParams])
      2]
    simp only [List.range_succ, List.range_zero, List.nil_append,
      List.cons_append, List.map_cons, List.map_nil, Option.map_some,
      Option.some.injEq]
    norm_num [mkRowP, assetValP, stockParams]
  · rw [projection_sample]
    norm_num [sampleRows, Option.map_some]

end BudgetInvest
